import Mathlib

/-!
Verification development for the autovpn daemon.

Shallow embedding of the daemon's pure decision logic, translated from the
Rust sources:
  * `src/rule.rs`    — route-netlink policy-rule reconciliation,
  * `src/wifi.rs`    — nl80211 WiFi event handling and SSID classification,
  * `src/networkd.rs`, `src/wireguard/mod.rs` — broadcast-bus subscriber loops,
  * `src/main.rs`    — the `Msg` bus vocabulary, `Config`, and the shutdown
    sequence.

Machine integers are modelled as `Nat` with explicit byte decomposition.
Native byte order is fixed to little-endian (the byte order of every target
the daemon supports; encoder and decoder use the same convention, as in the
source where both sides call `to_ne_bytes` / `from_ne_bytes`).

A Rust `panic!` (here: `copy_from_slice` on a slice of the wrong length) is
modelled by an `Option`-valued function returning `none`.
-/

/-- Broadcast bus message, from `main.rs` (`pub enum Msg`). -/
inductive Msg
  | Enable
  | Disable
  | Quit
deriving DecidableEq, Repr

/-- Process configuration, from `main.rs` (`pub struct Config`). -/
structure Config where
  wireguard_interface : String
  wlan_interface : String
  known_networks : List String
  firewall_mark : Nat
  routing_table : Nat
  ipv6 : Bool
deriving DecidableEq, Repr

/-- The four bytes of a `u32` in native (little-endian) order, as produced by
`u32::to_ne_bytes`. -/
def u32_to_ne_bytes (n : Nat) : List Nat :=
  [n % 256, n / 256 % 256, n / 65536 % 256, n / 16777216 % 256]

/-- `u32::from_ne_bytes` on four bytes in native (little-endian) order. -/
def u32_from_ne_bytes (a b c d : Nat) : Nat :=
  a + 256 * b + 65536 * c + 16777216 * d

/-- Netlink header flags used by the daemon (`neli::consts::nl::NlmF`). -/
inductive NlmF
  | Request
  | Multi
  | Create
  | Excl
  | Dump
  | MatchF
deriving DecidableEq, Repr

/-- Netlink control message types used by the daemon
(`neli::consts::nl::Nlmsg`); only `Done` is ever inspected. -/
inductive Nlmsg
  | Noop
  | Error
  | Done
  | Overrun
deriving DecidableEq, Repr

/-- Route-netlink address family (`neli::consts::rtnl::RtAddrFamily`),
restricted to the two families the daemon uses. -/
inductive RtAddrFamily
  | Inet
  | Inet6
deriving DecidableEq, Repr

/-- Route attribute type codes used by the daemon
(`neli::consts::rtnl::Rta`). -/
inductive Rta
  | Src
  | Mark
  | Table
  | OtherRta (code : Nat)
deriving DecidableEq, Repr

/-- Route-netlink message types used by the daemon
(`neli::consts::rtnl::Rtm`). -/
inductive Rtm
  | Newrule
  | Delrule
  | Getrule
deriving DecidableEq, Repr

/-- A route attribute (`neli::rtnl::Rtattr`): length, type code, raw payload
bytes. -/
structure Rtattr where
  rta_len : Nat
  rta_type : Rta
  rta_payload : List Nat
deriving DecidableEq, Repr

/-- A route-netlink rule record (`neli::rtnl::Rtmsg`).  The fixed scalar
fields (`rtm_dst_len`, `rtm_src_len`, `rtm_tos`, `rtm_table`, `rtm_protocol`,
`rtm_scope`, `rtm_type`, `rtm_flags`) are set to constants by
`generate_rule_msg` in `rule.rs` and never read back by the code under
verification, so only the family and the attribute list are modelled. -/
structure Rtmsg where
  rtm_family : RtAddrFamily
  rtattrs : List Rtattr
deriving DecidableEq, Repr

/-- A decoded route-netlink message as surfaced by `recv_all`
(`neli::nl::Nlmsghdr` with an `Rtmsg` payload): header flags plus the
optional payload (`nl_payload.get_payload()`). -/
structure NlRuleMsg where
  nl_flags : List NlmF
  nl_payload : Option Rtmsg
deriving DecidableEq, Repr

/-- An outgoing route-netlink request (`neli::nl::Nlmsghdr<Rtm, Rtmsg>`);
`nl_len`, `nl_seq` and `nl_pid` are filled in by the transport library and
are not modelled. -/
structure NlmsghdrRt where
  nl_type : Rtm
  nl_flags : List NlmF
  payload : Rtmsg
deriving DecidableEq, Repr

/-- Attribute list built by `generate_rtattrs` in `rule.rs` (lines 23-42):
a source selector with a single zero byte of payload (`rta_len` 5), the
fwmark, and the table id (both as native-endian `u32`). -/
def generate_rtattrs (fwmark table : Nat) : List Rtattr :=
  [ { rta_len := 5, rta_type := Rta.Src, rta_payload := [0] },
    { rta_len := 8, rta_type := Rta.Mark, rta_payload := u32_to_ne_bytes fwmark },
    { rta_len := 8, rta_type := Rta.Table, rta_payload := u32_to_ne_bytes table } ]

/-- Rule record built by `generate_rule_msg` in `rule.rs` (lines 44-59). -/
def generate_rule_msg (family : RtAddrFamily) (fwmark table : Nat) : Rtmsg :=
  { rtm_family := family, rtattrs := generate_rtattrs fwmark table }

/-- Request built by `generate_msg_header` in `rule.rs` (lines 61-77). -/
def generate_msg_header (family : RtAddrFamily) (rtm : Rtm) (fwmark table : Nat)
    (flags : List NlmF) : NlmsghdrRt :=
  { nl_type := rtm, nl_flags := flags, payload := generate_rule_msg family fwmark table }

/-- The create request sent by `add_rule` in `rule.rs` (lines 87-93). -/
def add_rule_request (family : RtAddrFamily) (fwmark table : Nat) : NlmsghdrRt :=
  generate_msg_header family Rtm.Newrule fwmark table [NlmF.Request, NlmF.Create, NlmF.Excl]

/-- Classification of a single dumped rule record, from `check_rule` in
`rule.rs` (lines 99-112).  The function scans the record's attributes for a
`Table` attribute and compares its payload against the literal `1000` — it
receives no target table id.  `copy_from_slice` panics unless the payload is
exactly 4 bytes; the panic is modelled as `none`. -/
def check_rule_attrs : List Rtattr → Option Bool
  | [] => some false
  | attr :: rest =>
    if attr.rta_type = Rta.Table then
      match attr.rta_payload with
      | [a, b, c, d] =>
        if u32_from_ne_bytes a b c d = 1000 then some true
        else check_rule_attrs rest
      | _ => none
    else check_rule_attrs rest

/-- `check_rule` from `rule.rs` lines 99-112 (see `check_rule_attrs`). -/
def check_rule (msg : Rtmsg) : Option Bool :=
  check_rule_attrs msg.rtattrs

/-- The `for msg in msgs` loop of `check_rules` in `rule.rs` (lines 135-145),
threading the `rule_exists` and `check_done` accumulators; `none` models a
panic escaping from `check_rule`. -/
def check_rules_loop : List NlRuleMsg → Bool → Bool → Option (Bool × Bool)
  | [], rule_exists, check_done => some (rule_exists, check_done)
  | m :: rest, rule_exists, check_done =>
    let check_done' := if NlmF.Multi ∈ m.nl_flags then true else check_done
    match m.nl_payload with
    | some payload =>
      match check_rule payload with
      | none => none
      | some b => check_rules_loop rest (rule_exists || b) check_done'
    | none => check_rules_loop rest rule_exists check_done'

/-- Errors surfaced by the embedded `check_rules`: a panic escaping
`check_rule`, or the "no done message recieved" protocol error. -/
inductive RuleErr
  | Panicked
  | NoDone
deriving DecidableEq, Repr

/-- Decision core of `check_rules` in `rule.rs` (lines 114-157), applied to
the messages returned by `recv_all` and to the optional trailing control
message read when a multi-part dump was seen. -/
def check_rules (msgs : List NlRuleMsg) (doneMsg : Option Nlmsg) : Except RuleErr Bool :=
  match check_rules_loop msgs false false with
  | none => Except.error RuleErr.Panicked
  | some (rule_exists, check_done) =>
    if check_done then
      match doneMsg with
      | some d => if d ≠ Nlmsg.Done then Except.error RuleErr.NoDone else Except.ok rule_exists
      | none => Except.ok rule_exists
    else Except.ok rule_exists

/-- Simulated kernel reply to the `Getrule` dump issued by `check_rules`:
the kernel returns every installed rule record of the requested family, each
carried in a multi-part message (the `Multi` flag set). -/
def dump_reply (st : List Rtmsg) (family : RtAddrFamily) : List NlRuleMsg :=
  (st.filter (fun r => r.rtm_family = family)).map
    (fun r => { nl_flags := [NlmF.Multi], nl_payload := some r })

/-- `add_rule` from `rule.rs` (lines 79-97) run against a simulated kernel
rule state: check existing rules of the family; if no match is reported,
send the exclusive create request, which installs the generated rule record.
Returns the new kernel state together with the create requests sent. -/
def add_rule (st : List Rtmsg) (family : RtAddrFamily) (fwmark table : Nat) :
    Except RuleErr (List Rtmsg × List NlmsghdrRt) :=
  match check_rules (dump_reply st family) (some Nlmsg.Done) with
  | Except.error e => Except.error e
  | Except.ok true => Except.ok (st, [])
  | Except.ok false =>
    Except.ok (st ++ [generate_rule_msg family fwmark table],
      [add_rule_request family fwmark table])

/-- One rule-reconciler invocation, identified by operation, family, fwmark
and table. -/
inductive RuleOp
  | add (family : RtAddrFamily) (fwmark table : Nat)
  | remove (family : RtAddrFamily) (fwmark table : Nat)
deriving DecidableEq, Repr

/-- Sequence of `add_rule` calls issued by `enable_rules` in `rule.rs`
(lines 180-200): IPv4 unconditionally, IPv6 only when `config.ipv6`. -/
def enable_rules (c : Config) : List RuleOp :=
  [RuleOp.add RtAddrFamily.Inet c.firewall_mark c.routing_table] ++
    (if c.ipv6 then [RuleOp.add RtAddrFamily.Inet6 c.firewall_mark c.routing_table] else [])

/-- Sequence of `remove_rule` calls issued by `disable_rules` in `rule.rs`
(lines 202-220): both families, unconditionally. -/
def disable_rules (c : Config) : List RuleOp :=
  [RuleOp.remove RtAddrFamily.Inet c.firewall_mark c.routing_table,
   RuleOp.remove RtAddrFamily.Inet6 c.firewall_mark c.routing_table]

/-- nl80211 commands consumed by the daemon (`neli_wifi::Nl80211Cmd`),
with a catch-all for the remaining protocol vocabulary. -/
inductive Nl80211Cmd
  | CmdGetInterface
  | CmdConnect
  | CmdDisconnect
  | CmdNewInterface
  | OtherCmd (code : Nat)
deriving DecidableEq, Repr

/-- nl80211 attribute codes consumed by the daemon
(`neli_wifi::Nl80211Attr`), with a catch-all. -/
inductive Nl80211Attr
  | AttrIfindex
  | AttrIfname
  | AttrSsid
  | OtherAttr (code : Nat)
deriving DecidableEq, Repr

/-- A generic-netlink attribute (`neli::genl::Nlattr`): type code and raw
payload bytes. -/
structure Nlattr where
  nla_type : Nl80211Attr
  nla_payload : List Nat
deriving DecidableEq, Repr

/-- A generic-netlink message body (`neli::genl::Genlmsghdr`): command,
version, attribute list. -/
structure Genlmsghdr where
  cmd : Nl80211Cmd
  version : Nat
  attrs : List Nlattr
deriving DecidableEq, Repr

/-- `get_attr_handle().get_attribute(t)`: the first attribute with the
requested type code, if any. -/
def get_attribute (attrs : List Nlattr) (t : Nl80211Attr) : Option Nlattr :=
  attrs.find? (fun a => a.nla_type = t)

/-- `parse_ifindex` from `wifi.rs` (lines 26-30): `copy_from_slice` panics
unless the payload is exactly 4 bytes (modelled as `none`); otherwise the
bytes are read as a native-endian `u32`. -/
def parse_ifindex (bytes : List Nat) : Option Nat :=
  match bytes with
  | [a, b, c, d] => some (u32_from_ne_bytes a b c d)
  | _ => none

/-- The Unicode replacement character U+FFFD. -/
def repl_char : Char := Char.ofNat 0xFFFD

/-- UTF-8 continuation byte test (`0x80..=0xBF`). -/
def utf8_cont (b : Nat) : Bool := 0x80 ≤ b && b ≤ 0xBF

/-- Decode one scalar value from a byte stream, as `String::from_utf8_lossy`
does: a well-formed sequence yields its code point, an ill-formed sequence
yields U+FFFD after consuming its maximal valid prefix.  Returns the decoded
character and the remaining bytes (always a strict suffix of the input). -/
def utf8_step (b : Nat) (rest : List Nat) : Char × List Nat :=
  if b < 0x80 then (Char.ofNat b, rest)
  else if b < 0xC2 then (repl_char, rest)
  else if b ≤ 0xDF then
    match rest with
    | [] => (repl_char, [])
    | b1 :: rest1 =>
      if utf8_cont b1 then (Char.ofNat ((b - 0xC0) * 64 + (b1 - 0x80)), rest1)
      else (repl_char, b1 :: rest1)
  else if b ≤ 0xEF then
    match rest with
    | [] => (repl_char, [])
    | b1 :: rest1 =>
      if (if b = 0xE0 then decide (0xA0 ≤ b1) && decide (b1 ≤ 0xBF)
          else if b = 0xED then decide (0x80 ≤ b1) && decide (b1 ≤ 0x9F)
          else utf8_cont b1) then
        match rest1 with
        | [] => (repl_char, [])
        | b2 :: rest2 =>
          if utf8_cont b2 then
            (Char.ofNat ((b - 0xE0) * 4096 + (b1 - 0x80) * 64 + (b2 - 0x80)), rest2)
          else (repl_char, b2 :: rest2)
      else (repl_char, b1 :: rest1)
  else if b ≤ 0xF4 then
    match rest with
    | [] => (repl_char, [])
    | b1 :: rest1 =>
      if (if b = 0xF0 then decide (0x90 ≤ b1) && decide (b1 ≤ 0xBF)
          else if b = 0xF4 then decide (0x80 ≤ b1) && decide (b1 ≤ 0x8F)
          else utf8_cont b1) then
        match rest1 with
        | [] => (repl_char, [])
        | b2 :: rest2 =>
          if utf8_cont b2 then
            match rest2 with
            | [] => (repl_char, [])
            | b3 :: rest3 =>
              if utf8_cont b3 then
                (Char.ofNat ((b - 0xF0) * 262144 + (b1 - 0x80) * 4096 +
                  (b2 - 0x80) * 64 + (b3 - 0x80)), rest3)
              else (repl_char, b3 :: rest3)
          else (repl_char, b2 :: rest2)
      else (repl_char, b1 :: rest1)
  else (repl_char, rest)

/-- Iterate `utf8_step`.  The fuel starts at the byte count; each step
consumes at least one byte, so the fuel never runs out before the input. -/
def utf8_lossy_go : Nat → List Nat → List Char
  | _, [] => []
  | 0, _ :: _ => []
  | fuel + 1, b :: rest =>
    let step := utf8_step b rest
    step.1 :: utf8_lossy_go fuel step.2

/-- `String::from_utf8_lossy` on a byte list (the library routine `wifi.rs`
calls to decode the SSID attribute permissively). -/
def from_utf8_lossy (bytes : List Nat) : String :=
  String.mk (utf8_lossy_go bytes.length bytes)

/-- Outcome of `cmd_connect`: the cached interface index afterwards and the
index for which a `get_ssid` follow-up query was issued, if any. -/
structure ConnectResult where
  ifindex : Option Nat
  ssid_query : Option Nat
deriving DecidableEq, Repr

/-- `cmd_connect` from `wifi.rs` (lines 116-140): read the event's interface
index attribute (`none` models the `parse_ifindex` panic on a malformed
payload); `get_or_insert` adopts the event's index when none is cached;
a differing cached index ignores the event; otherwise a `get_ssid` query is
issued for the (cached) index.  A missing index attribute is ignored with a
warning. -/
def cmd_connect (ifindex : Option Nat) (header : Genlmsghdr) : Option ConnectResult :=
  match get_attribute header.attrs Nl80211Attr.AttrIfindex with
  | some attr =>
    match parse_ifindex attr.nla_payload with
    | none => none
    | some current_ifindex =>
      let cached := ifindex.getD current_ifindex
      if cached ≠ current_ifindex then
        some { ifindex := some cached, ssid_query := none }
      else
        some { ifindex := some cached, ssid_query := some cached }
  | none => some { ifindex := ifindex, ssid_query := none }

/-- `cmd_new_interface` from `wifi.rs` (lines 142-161): decode the SSID
attribute permissively and publish `Disable` when the name is in the
known-network list, `Enable` otherwise; publish nothing when the attribute
is absent. -/
def cmd_new_interface (header : Genlmsghdr) (known_networks : List String) : Option Msg :=
  match get_attribute header.attrs Nl80211Attr.AttrSsid with
  | some attr =>
    let ssid := from_utf8_lossy attr.nla_payload
    if known_networks.any (fun s => s == ssid) then some Msg.Disable
    else some Msg.Enable
  | none => none

/-- `handle_payload` from `wifi.rs` (lines 163-186), as a function from the
cached index and the message body to the new cached index, the published
bus messages, and the `get_ssid` queries issued; `none` models a panic. -/
def handle_payload (ifindex : Option Nat) (payload : Genlmsghdr)
    (known_networks : List String) : Option (Option Nat × List Msg × List Nat) :=
  match payload.cmd with
  | Nl80211Cmd.CmdConnect =>
    match cmd_connect ifindex payload with
    | none => none
    | some r => some (r.ifindex, [], r.ssid_query.toList)
  | Nl80211Cmd.CmdDisconnect => some (ifindex, [Msg.Disable], [])
  | Nl80211Cmd.CmdNewInterface =>
    some (ifindex, (cmd_new_interface payload known_networks).toList, [])
  | _ => some (ifindex, [], [])

/-- A decoded generic-netlink message from the event stream
(`neli::nl::Nlmsghdr` with a `Genlmsghdr` payload). -/
structure NlGenlMsg where
  nl_flags : List NlmF
  nl_payload : Option Genlmsghdr
deriving DecidableEq, Repr

/-- `handle_messages` from `wifi.rs` (lines 188-205): messages whose header
carries the `Request` flag are skipped entirely; messages without a payload
are skipped; the rest are dispatched to `handle_payload`.  `none` models a
panic escaping a handler. -/
def handle_messages (ifindex : Option Nat) (msgs : List NlGenlMsg)
    (known_networks : List String) : Option (Option Nat × List Msg × List Nat) :=
  match msgs with
  | [] => some (ifindex, [], [])
  | m :: rest =>
    if NlmF.Request ∈ m.nl_flags then handle_messages ifindex rest known_networks
    else
      match m.nl_payload with
      | none => handle_messages ifindex rest known_networks
      | some payload =>
        match handle_payload ifindex payload known_networks with
        | none => none
        | some (ifindex', published, queries) =>
          match handle_messages ifindex' rest known_networks with
          | none => none
          | some (ifindex'', published', queries') =>
            some (ifindex'', published ++ published', queries ++ queries')

/-- The task body spawned by `setup` in `wifi.rs` (lines 236-253), over one
batch of received event messages: only when the startup interface dump
resolved an index does the task issue the initial `get_ssid` query and enter
`recieve_messages`; with no startup index the task body does nothing and the
event stream is never read. -/
def wifi_task (startup_ifindex : Option Nat) (events : List NlGenlMsg)
    (known_networks : List String) : Option (Option Nat × List Msg × List Nat) :=
  match startup_ifindex with
  | some i =>
    match handle_messages (some i) events known_networks with
    | none => none
    | some (ifindex', published, queries) => some (ifindex', published, i :: queries)
  | none => some (none, [], [])

/-- The Rule Reconciler's receive loop from `setup` in `rule.rs`
(lines 226-245), as the list of messages the loop dequeues from a delivered
message sequence before exiting: `Enable` and `Disable` are handled and the
loop continues; `Quit` breaks the loop; an exhausted channel ends it. -/
def rule_handled : List Msg → List Msg
  | [] => []
  | Msg.Enable :: rest => Msg.Enable :: rule_handled rest
  | Msg.Disable :: rest => Msg.Disable :: rule_handled rest
  | Msg.Quit :: _ => [Msg.Quit]

/-- The DNS-toggle receive loop from `setup` in `networkd.rs`
(lines 79-98): same break-on-`Quit` structure as the Rule Reconciler
(`Quit` additionally aborts the connection-error watcher task). -/
def networkd_handled : List Msg → List Msg
  | [] => []
  | Msg.Enable :: rest => Msg.Enable :: networkd_handled rest
  | Msg.Disable :: rest => Msg.Disable :: networkd_handled rest
  | Msg.Quit :: _ => [Msg.Quit]

/-- The VPN Port Rotator's receive loop from `setup` in `wireguard/mod.rs`
(lines 72-84): the loop body only tests for `Enable` (triggering a listen
port change) and has no break — every delivered message is dequeued and the
loop ends only when the channel is closed and drained. -/
def wg_handled : List Msg → List Msg
  | [] => []
  | m :: rest => m :: wg_handled rest

/-- The two state-reverting subscribers that `main` waits for at shutdown
(`n_handle` and `r_handle` in `main.rs` lines 67-68). -/
inductive Subscr
  | networkd
  | ruleRec
deriving DecidableEq, Repr

/-- An event in a shutdown trace: a subscriber handling one bus message, or
the process exiting (`main` returning). -/
inductive Ev
  | obs (s : Subscr) (m : Msg)
  | exitEv
deriving DecidableEq, Repr

/-- Interleaving of two event sequences into one trace, preserving the
relative order within each sequence — the guarantee the broadcast bus plus
independent task scheduling provide. -/
inductive Interleave : List Ev → List Ev → List Ev → Prop
  | nil : Interleave [] [] []
  | left {x l r t} : Interleave l r t → Interleave (x :: l) r (x :: t)
  | right {x l r t} : Interleave l r t → Interleave l (x :: r) (x :: t)

/-- Messages a state-reverting subscriber dequeues from a delivered
sequence. -/
def sub_handled : Subscr → List Msg → List Msg
  | Subscr.networkd, ms => networkd_handled ms
  | Subscr.ruleRec, ms => rule_handled ms

/-- Handling events of one subscriber over a delivered message sequence. -/
def handle_events (s : Subscr) (ms : List Msg) : List Ev :=
  (sub_handled s ms).map (Ev.obs s)

/-- The messages `main` publishes at shutdown (`main.rs` lines 65-66):
`Disable`, then `Quit`. -/
def shutdown_published : List Msg := [Msg.Disable, Msg.Quit]

/-- The full message sequence a subscriber receives across shutdown: its
pending backlog followed by the shutdown publications, in publish order
(the broadcast bus delivers to each live subscriber in publish order). -/
def shutdown_delivered (pending : List Msg) : List Msg :=
  pending ++ shutdown_published

/-- A shutdown trace of `main` (`main.rs` lines 63-69): any interleaving of
the two awaited subscribers' handling events — `main` aborts the WiFi
Monitor and Port Rotator first, publishes `Disable` then `Quit`, and awaits
`n_handle` and `r_handle` — followed by the process exit. -/
def ShutdownTrace (pn pr : List Msg) (t : List Ev) : Prop :=
  ∃ t0, Interleave (handle_events Subscr.networkd (shutdown_delivered pn))
      (handle_events Subscr.ruleRec (shutdown_delivered pr)) t0 ∧
    t = t0 ++ [Ev.exitEv]

/-- The Rule Reconciler's loop handles everything before the first `Quit`
and stops at it. -/
theorem rule_handled_stops (pre post : List Msg) (h : Msg.Quit ∉ pre) :
    rule_handled (pre ++ Msg.Quit :: post) = pre ++ [Msg.Quit] := by
  induction pre with
  | nil => rfl
  | cons m pre ih =>
    have hm : m ≠ Msg.Quit := fun e => h (e ▸ List.mem_cons_self m pre)
    have hpre : Msg.Quit ∉ pre := fun hq => h (List.mem_cons_of_mem m hq)
    cases m with
    | Enable => simpa [rule_handled] using ih hpre
    | Disable => simpa [rule_handled] using ih hpre
    | Quit => exact absurd rfl hm

/-- The DNS-toggle loop handles everything before the first `Quit` and
stops at it. -/
theorem networkd_handled_stops (pre post : List Msg) (h : Msg.Quit ∉ pre) :
    networkd_handled (pre ++ Msg.Quit :: post) = pre ++ [Msg.Quit] := by
  induction pre with
  | nil => rfl
  | cons m pre ih =>
    have hm : m ≠ Msg.Quit := fun e => h (e ▸ List.mem_cons_self m pre)
    have hpre : Msg.Quit ∉ pre := fun hq => h (List.mem_cons_of_mem m hq)
    cases m with
    | Enable => simpa [networkd_handled] using ih hpre
    | Disable => simpa [networkd_handled] using ih hpre
    | Quit => exact absurd rfl hm

/-- The Port Rotator's loop dequeues every delivered message. -/
theorem wg_handled_eq (ms : List Msg) : wg_handled ms = ms := by
  induction ms with
  | nil => rfl
  | cons m rest ih => simp [wg_handled, ih]

/-- The left source of an interleaving is a sublist of the trace. -/
theorem interleave_sublist_left {l r t : List Ev} (h : Interleave l r t) :
    l.Sublist t := by
  induction h with
  | nil => exact List.Sublist.refl []
  | left _ ih => exact List.Sublist.cons₂ _ ih
  | right _ ih => exact List.Sublist.cons _ ih

/-- The right source of an interleaving is a sublist of the trace. -/
theorem interleave_sublist_right {l r t : List Ev} (h : Interleave l r t) :
    r.Sublist t := by
  induction h with
  | nil => exact List.Sublist.refl []
  | left _ ih => exact List.Sublist.cons _ ih
  | right _ ih => exact List.Sublist.cons₂ _ ih

/-- Every element of an interleaved trace comes from one of the sources. -/
theorem interleave_mem {l r t : List Ev} (h : Interleave l r t) :
    ∀ x ∈ t, x ∈ l ∨ x ∈ r := by
  induction h with
  | nil => intro x hx; cases hx
  | left _ ih =>
    intro x hx
    rcases List.mem_cons.mp hx with rfl | hx
    · exact Or.inl (List.mem_cons_self _ _)
    · rcases ih x hx with hl | hr
      · exact Or.inl (List.mem_cons_of_mem _ hl)
      · exact Or.inr hr
  | right _ ih =>
    intro x hx
    rcases List.mem_cons.mp hx with rfl | hx
    · exact Or.inr (List.mem_cons_self _ _)
    · rcases ih x hx with hl | hr
      · exact Or.inl hl
      · exact Or.inr (List.mem_cons_of_mem _ hr)

/-- A singleton sublist occurs at some index. -/
theorem sublist_single_get {α : Type} {y : α} :
    ∀ {t : List α}, [y].Sublist t → ∃ j, t.get? j = some y := by
  intro t h
  induction t with
  | nil => simp at h
  | cons a t ih =>
    cases h with
    | cons _ h' =>
      obtain ⟨j, hj⟩ := ih h'
      exact ⟨j + 1, by simpa using hj⟩
    | cons₂ _ h' => exact ⟨0, rfl⟩

/-- A two-element sublist occurs at a pair of increasing indices. -/
theorem sublist_pair_get {α : Type} {x y : α} :
    ∀ {t : List α}, ([x, y] : List α).Sublist t →
      ∃ i j, i < j ∧ t.get? i = some x ∧ t.get? j = some y := by
  intro t h
  induction t with
  | nil => simp at h
  | cons a t ih =>
    cases h with
    | cons _ h' =>
      obtain ⟨i, j, hij, hi, hj⟩ := ih h'
      exact ⟨i + 1, j + 1, by omega, by simpa using hi, by simpa using hj⟩
    | cons₂ _ h' =>
      obtain ⟨j, hj⟩ := sublist_single_get h'
      exact ⟨0, j + 1, by omega, rfl, by simpa using hj⟩

/-- C1: the rule existence check does not compare a dumped record's table
attribute against the target table id — `check_rule` compares it against the
literal `1000` and receives no target at all.  For the target
`(Inet, fwmark 100, table 2000)`, a reply containing exactly one rule record
whose table attribute is 2000 classifies as "rule exists" = `false`, where
the claim requires `true`; only for a target table id of 1000 do the claim's
concrete instances hold (record 1000 ↦ `true`, record 2000 ↦ `false`). -/
theorem check_rules_ignores_target_table :
    check_rules (dump_reply [generate_rule_msg RtAddrFamily.Inet 100 2000] RtAddrFamily.Inet)
      (some Nlmsg.Done) = Except.ok false ∧
    check_rules (dump_reply [generate_rule_msg RtAddrFamily.Inet 100 1000] RtAddrFamily.Inet)
      (some Nlmsg.Done) = Except.ok true ∧
    check_rule (generate_rule_msg RtAddrFamily.Inet 100 2000) = some false ∧
    check_rule (generate_rule_msg RtAddrFamily.Inet 100 1000) = some true :=
  ⟨rfl, rfl, rfl, rfl⟩

/-- C2: rule creation is not idempotent for a table id other than 1000.
Starting from an empty kernel state, two `add_rule` calls for
`(Inet, fwmark 100, table 2000)` leave two identical rules installed — the
second call's existence check misses the first rule because `check_rule`
compares against the literal 1000.  For table id 1000 the second call is a
no-op as the claim demands. -/
theorem add_rule_twice_duplicates :
    (match add_rule [] RtAddrFamily.Inet 100 2000 with
     | Except.ok (st, _) => add_rule st RtAddrFamily.Inet 100 2000
     | Except.error e => Except.error e) =
      Except.ok ([generate_rule_msg RtAddrFamily.Inet 100 2000,
        generate_rule_msg RtAddrFamily.Inet 100 2000],
        [add_rule_request RtAddrFamily.Inet 100 2000]) ∧
    (match add_rule [] RtAddrFamily.Inet 100 1000 with
     | Except.ok (st, _) => add_rule st RtAddrFamily.Inet 100 1000
     | Except.error e => Except.error e) =
      Except.ok ([generate_rule_msg RtAddrFamily.Inet 100 1000], []) :=
  ⟨rfl, rfl⟩

/-- C5: a malformed kernel message does crash the daemon.  A connect event
whose interface-index attribute payload is 3 bytes makes `parse_ifindex`'s
`copy_from_slice` panic (modelled as `none`), aborting the receive loop
rather than continuing; likewise `check_rule` panics on a 2-byte table
attribute payload. -/
theorem malformed_attr_payload_panics :
    handle_messages none
      [{ nl_flags := [],
         nl_payload := some
           { cmd := Nl80211Cmd.CmdConnect, version := 1,
             attrs := [{ nla_type := Nl80211Attr.AttrIfindex, nla_payload := [0, 0, 0] }] } }]
      [] = none ∧
    parse_ifindex [0, 0, 0] = none ∧
    check_rule { rtm_family := RtAddrFamily.Inet,
                 rtattrs := [{ rta_len := 6, rta_type := Rta.Table, rta_payload := [0, 0] }] } =
      none :=
  ⟨rfl, rfl, rfl⟩

/-- C8: `cmd_connect` itself does adopt the event's index when none is
cached (first conjunct), but when the startup interface dump found no index
the spawned WiFi task never enters the receive loop (`recieve_messages` sits
inside `if let Some(i) = ifindex` in `setup`), so a subsequent connect event
for interface 5 is never observed: no index is adopted and no SSID query is
issued (second conjunct), contradicting the claim and the code's own
"will get later" log message. -/
theorem wifi_task_without_startup_index :
    cmd_connect none
      { cmd := Nl80211Cmd.CmdConnect, version := 1,
        attrs := [{ nla_type := Nl80211Attr.AttrIfindex, nla_payload := [5, 0, 0, 0] }] } =
      some { ifindex := some 5, ssid_query := some 5 } ∧
    wifi_task none
      [{ nl_flags := [],
         nl_payload := some
           { cmd := Nl80211Cmd.CmdConnect, version := 1,
             attrs := [{ nla_type := Nl80211Attr.AttrIfindex, nla_payload := [5, 0, 0, 0] }] } }]
      [] = some (none, [], []) := by
  constructor
  · decide
  · rfl

/-- C7 counterexample: the VPN Port Rotator's receive loop has no `Quit`
case, so receiving `Quit` does not stop it — delivered `[Quit, Enable]`, the
loop dequeues and handles both messages instead of stopping at `Quit`. -/
theorem wg_ignores_quit :
    wg_handled [Msg.Quit, Msg.Enable] = [Msg.Quit, Msg.Enable] ∧
    wg_handled [Msg.Quit, Msg.Enable] ≠ [Msg.Quit] := by
  decide

/-- C9 counterexample: the create request's source selector attribute is not
zero-length — for `(Inet, fwmark 100, table 200)` it carries a single zero
byte of payload. -/
theorem src_selector_payload_nonempty :
    ∃ a ∈ (add_rule_request RtAddrFamily.Inet 100 200).payload.rtattrs,
      a.rta_type = Rta.Src ∧ a.rta_payload ≠ [] := by
  decide

/-- C3: for every known-network set `K` and every new-interface event, the
WiFi Monitor publishes exactly one decision when the SSID attribute is
present — `Disable` iff the decoded network name is a member of `K` (exact
string match), `Enable` otherwise — and publishes nothing when the SSID
attribute is absent. -/
theorem new_interface_classification (K : List String) (h : Genlmsghdr) :
    (∀ a, get_attribute h.attrs Nl80211Attr.AttrSsid = some a →
        cmd_new_interface h K =
          some (if from_utf8_lossy a.nla_payload ∈ K then Msg.Disable else Msg.Enable) ∧
        (cmd_new_interface h K = some Msg.Disable ↔ from_utf8_lossy a.nla_payload ∈ K) ∧
        (cmd_new_interface h K = some Msg.Enable ↔ from_utf8_lossy a.nla_payload ∉ K)) ∧
    (get_attribute h.attrs Nl80211Attr.AttrSsid = none → cmd_new_interface h K = none) := by
  constructor
  · intro a ha
    have hany : (K.any fun s => s == from_utf8_lossy a.nla_payload) = true ↔
        from_utf8_lossy a.nla_payload ∈ K := by
      simp [List.any_eq_true]
    by_cases hk : from_utf8_lossy a.nla_payload ∈ K
    · have hb : (K.any fun s => s == from_utf8_lossy a.nla_payload) = true := hany.mpr hk
      refine ⟨?_, ?_, ?_⟩ <;> simp [cmd_new_interface, ha, hb, hk]
    · have hb : (K.any fun s => s == from_utf8_lossy a.nla_payload) = false := by
        rcases hc : (K.any fun s => s == from_utf8_lossy a.nla_payload) with _ | _
        · rfl
        · exact absurd (hany.mp hc) hk
      refine ⟨?_, ?_, ?_⟩ <;> simp [cmd_new_interface, ha, hb, hk]
  · intro ha
    simp [cmd_new_interface, ha]

/-- C3 witness: with known networks `["Home"]`, a new-interface event whose
SSID bytes decode to "Office" (not known) publishes `Enable`. -/
theorem new_interface_classification_witness :
    cmd_new_interface
      { cmd := Nl80211Cmd.CmdNewInterface, version := 1,
        attrs := [{ nla_type := Nl80211Attr.AttrSsid,
                    nla_payload := [79, 102, 102, 105, 99, 101] }] }
      ["Home"] = some Msg.Enable := by
  have h := (new_interface_classification ["Home"]
      { cmd := Nl80211Cmd.CmdNewInterface, version := 1,
        attrs := [{ nla_type := Nl80211Attr.AttrSsid,
                    nla_payload := [79, 102, 102, 105, 99, 101] }] }).1
      { nla_type := Nl80211Attr.AttrSsid, nla_payload := [79, 102, 102, 105, 99, 101] }
      (by decide)
  rw [h.1, if_neg (by decide)]

/-- C6: `enable_rules` adds an IPv4 rule unconditionally and an IPv6 rule
exactly when the configuration's IPv6 flag is set; `disable_rules` attempts
removal of both the IPv4 and the IPv6 rule, and its call sequence does not
depend on the IPv6 flag at all. -/
theorem enable_disable_families (c : Config) :
    RuleOp.add RtAddrFamily.Inet c.firewall_mark c.routing_table ∈ enable_rules c ∧
    (RuleOp.add RtAddrFamily.Inet6 c.firewall_mark c.routing_table ∈ enable_rules c ↔
      c.ipv6 = true) ∧
    disable_rules c =
      [RuleOp.remove RtAddrFamily.Inet c.firewall_mark c.routing_table,
       RuleOp.remove RtAddrFamily.Inet6 c.firewall_mark c.routing_table] ∧
    ∀ b, disable_rules { c with ipv6 := b } = disable_rules c := by
  refine ⟨?_, ?_, rfl, fun b => rfl⟩
  · simp [enable_rules]
  · cases hc : c.ipv6 <;> simp [enable_rules, hc]

/-- C7 (amended): the Rule Reconciler's and the DNS toggle's receive loops
stop at the first `Quit`, handling exactly the messages before it plus the
`Quit` itself; the VPN Port Rotator's loop ignores `Quit` and dequeues every
delivered message (it is aborted by `main` at shutdown instead of exiting
on `Quit`). -/
theorem quit_stops_rule_and_networkd (pre post : List Msg) (h : Msg.Quit ∉ pre) :
    rule_handled (pre ++ Msg.Quit :: post) = pre ++ [Msg.Quit] ∧
    networkd_handled (pre ++ Msg.Quit :: post) = pre ++ [Msg.Quit] ∧
    ∀ ms : List Msg, wg_handled ms = ms :=
  ⟨rule_handled_stops pre post h, networkd_handled_stops pre post h, wg_handled_eq⟩

/-- C7 witness: concrete instance of the amended claim at
`pre = [Enable]`, `post = [Disable]`. -/
theorem quit_stops_rule_and_networkd_witness :
    rule_handled [Msg.Enable, Msg.Quit, Msg.Disable] = [Msg.Enable, Msg.Quit] ∧
    networkd_handled [Msg.Enable, Msg.Quit, Msg.Disable] = [Msg.Enable, Msg.Quit] ∧
    wg_handled [Msg.Enable] = [Msg.Enable] :=
  ⟨(quit_stops_rule_and_networkd [Msg.Enable] [Msg.Disable] (by decide)).1,
   (quit_stops_rule_and_networkd [Msg.Enable] [Msg.Disable] (by decide)).2.1,
   (quit_stops_rule_and_networkd [Msg.Enable] [Msg.Disable] (by decide)).2.2 [Msg.Enable]⟩

/-- C9 (amended): every rule create request sent by `add_rule` carries the
`request+create+exclusive` flags and exactly three attributes — a source
selector whose payload is a single zero byte (the match-all selector, given
`rtm_src_len = 0`), the configured fwmark, and the configured table id —
and `add_rule` sends either nothing or exactly this one request. -/
theorem add_rule_request_shape (family : RtAddrFamily) (fwmark table : Nat) :
    (add_rule_request family fwmark table).nl_type = Rtm.Newrule ∧
    (add_rule_request family fwmark table).nl_flags =
      [NlmF.Request, NlmF.Create, NlmF.Excl] ∧
    (add_rule_request family fwmark table).payload.rtattrs =
      [{ rta_len := 5, rta_type := Rta.Src, rta_payload := [0] },
       { rta_len := 8, rta_type := Rta.Mark, rta_payload := u32_to_ne_bytes fwmark },
       { rta_len := 8, rta_type := Rta.Table, rta_payload := u32_to_ne_bytes table }] ∧
    ∀ st res, add_rule st family fwmark table = Except.ok res →
      res.2 = [] ∨ res.2 = [add_rule_request family fwmark table] := by
  refine ⟨rfl, rfl, rfl, ?_⟩
  intro st res hok
  unfold add_rule at hok
  rcases hcr : check_rules (dump_reply st family) (some Nlmsg.Done) with e | b
  · rw [hcr] at hok
    cases hok
  · rw [hcr] at hok
    cases b
    · simp only [] at hok
      cases hok
      exact Or.inr rfl
    · simp only [] at hok
      cases hok
      exact Or.inl rfl

/-- C9 witness: for `(Inet, fwmark 100, table 200)` on an empty kernel
state, `add_rule` sends exactly the one shaped create request. -/
theorem add_rule_request_shape_witness :
    (add_rule_request RtAddrFamily.Inet 100 200).nl_flags =
      [NlmF.Request, NlmF.Create, NlmF.Excl] ∧
    ((([generate_rule_msg RtAddrFamily.Inet 100 200],
       [add_rule_request RtAddrFamily.Inet 100 200]) :
        List Rtmsg × List NlmsghdrRt).2 = [] ∨
     (([generate_rule_msg RtAddrFamily.Inet 100 200],
       [add_rule_request RtAddrFamily.Inet 100 200]) :
        List Rtmsg × List NlmsghdrRt).2 = [add_rule_request RtAddrFamily.Inet 100 200]) :=
  ⟨(add_rule_request_shape RtAddrFamily.Inet 100 200).2.1,
   (add_rule_request_shape RtAddrFamily.Inet 100 200).2.2.2 [] _ rfl⟩

/-- C10: an event-stream message whose header flags include `Request` is
skipped entirely by `handle_messages` — no command handler runs, nothing is
published, no query is issued, and the cached index is unchanged: handling
the batch with the message is identical to handling the batch without it. -/
theorem request_flag_messages_skipped (ifindex : Option Nat) (m : NlGenlMsg)
    (rest : List NlGenlMsg) (K : List String) (h : NlmF.Request ∈ m.nl_flags) :
    handle_messages ifindex (m :: rest) K = handle_messages ifindex rest K := by
  simp [handle_messages, h]

/-- C10 witness: a disconnect event flagged as a request is skipped (it
would otherwise publish `Disable`). -/
theorem request_flag_messages_skipped_witness :
    handle_messages none
      [{ nl_flags := [NlmF.Request],
         nl_payload := some { cmd := Nl80211Cmd.CmdDisconnect, version := 1, attrs := [] } }]
      [] =
    handle_messages none [] [] :=
  request_flag_messages_skipped none
    { nl_flags := [NlmF.Request],
      nl_payload := some { cmd := Nl80211Cmd.CmdDisconnect, version := 1, attrs := [] } }
    [] [] (by decide)

/-- C4: in every shutdown trace — any interleaving of the two awaited
state-reverting subscribers' handling, followed by the process exit that
`main` reaches only after awaiting both tasks — each of the Rule Reconciler
and the DNS toggle observes `Disable` strictly before `Quit`, both
observations happen strictly before the process exit, and the exit is the
last event of the trace (assuming, as in the running system, that nothing
but the shutdown sequence ever publishes `Quit`). -/
theorem shutdown_disable_before_quit (pn pr : List Msg) (t : List Ev)
    (hn : Msg.Quit ∉ pn) (hr : Msg.Quit ∉ pr) (ht : ShutdownTrace pn pr t) :
    (∀ s : Subscr, ∃ i j, i < j ∧ j + 1 < t.length ∧
        t.get? i = some (Ev.obs s Msg.Disable) ∧ t.get? j = some (Ev.obs s Msg.Quit)) ∧
    t.get? (t.length - 1) = some Ev.exitEv ∧
    (∀ k, t.get? k = some Ev.exitEv → k = t.length - 1) := by
  obtain ⟨t0, hI, rfl⟩ := ht
  have hnd : Msg.Quit ∉ pn ++ [Msg.Disable] := by
    intro hmem
    rcases List.mem_append.mp hmem with h1 | h2
    · exact hn h1
    · simp at h2
  have hrd : Msg.Quit ∉ pr ++ [Msg.Disable] := by
    intro hmem
    rcases List.mem_append.mp hmem with h1 | h2
    · exact hr h1
    · simp at h2
  have hdeln : shutdown_delivered pn = (pn ++ [Msg.Disable]) ++ Msg.Quit :: [] := by
    simp [shutdown_delivered, shutdown_published]
  have hdelr : shutdown_delivered pr = (pr ++ [Msg.Disable]) ++ Msg.Quit :: [] := by
    simp [shutdown_delivered, shutdown_published]
  have hsl : ∀ s : Subscr,
      ([Ev.obs s Msg.Disable, Ev.obs s Msg.Quit] : List Ev).Sublist t0 := by
    intro s
    cases s with
    | networkd =>
      have hstop : networkd_handled (shutdown_delivered pn) =
          pn ++ [Msg.Disable, Msg.Quit] := by
        rw [hdeln, networkd_handled_stops _ _ hnd]
        simp
      have hev : handle_events Subscr.networkd (shutdown_delivered pn) =
          pn.map (Ev.obs Subscr.networkd) ++
            [Ev.obs Subscr.networkd Msg.Disable, Ev.obs Subscr.networkd Msg.Quit] := by
        simp [handle_events, sub_handled, hstop]
      have hpair : ([Ev.obs Subscr.networkd Msg.Disable,
          Ev.obs Subscr.networkd Msg.Quit] : List Ev).Sublist
          (handle_events Subscr.networkd (shutdown_delivered pn)) := by
        rw [hev]
        exact List.sublist_append_right _ _
      exact hpair.trans (interleave_sublist_left hI)
    | ruleRec =>
      have hstop : rule_handled (shutdown_delivered pr) =
          pr ++ [Msg.Disable, Msg.Quit] := by
        rw [hdelr, rule_handled_stops _ _ hrd]
        simp
      have hev : handle_events Subscr.ruleRec (shutdown_delivered pr) =
          pr.map (Ev.obs Subscr.ruleRec) ++
            [Ev.obs Subscr.ruleRec Msg.Disable, Ev.obs Subscr.ruleRec Msg.Quit] := by
        simp [handle_events, sub_handled, hstop]
      have hpair : ([Ev.obs Subscr.ruleRec Msg.Disable,
          Ev.obs Subscr.ruleRec Msg.Quit] : List Ev).Sublist
          (handle_events Subscr.ruleRec (shutdown_delivered pr)) := by
        rw [hev]
        exact List.sublist_append_right _ _
      exact hpair.trans (interleave_sublist_right hI)
  refine ⟨?_, ?_, ?_⟩
  · intro s
    obtain ⟨i, j, hij, hi, hj⟩ := sublist_pair_get (hsl s)
    have hjlen : j < t0.length := by
      have := List.get?_eq_some.mp hj
      exact this.1
    have hilen : i < t0.length := by
      have := List.get?_eq_some.mp hi
      exact this.1
    refine ⟨i, j, hij, ?_, ?_, ?_⟩
    · simp only [List.length_append, List.length_cons, List.length_nil]
      omega
    · rw [List.get?_append hilen]
      exact hi
    · rw [List.get?_append hjlen]
      exact hj
  · have hlast : (t0 ++ [Ev.exitEv]).length - 1 = t0.length := by simp
    rw [hlast, List.get?_append_right (le_refl _)]
    simp
  · intro k hk
    by_cases hkl : k < t0.length
    · exfalso
      rw [List.get?_append hkl] at hk
      have hmem : Ev.exitEv ∈ t0 := List.get?_mem hk
      rcases interleave_mem hI _ hmem with hL | hR
      · simp [handle_events] at hL
      · simp [handle_events] at hR
    · have hge : t0.length ≤ k := Nat.le_of_not_lt hkl
      rw [List.get?_append_right hge] at hk
      have hzero : k - t0.length = 0 := by
        rcases hkk : k - t0.length with _ | n
        · rfl
        · rw [hkk] at hk
          simp at hk
      simp only [List.length_append, List.length_cons, List.length_nil]
      omega

/-- C4 witness: the concrete shutdown trace in which the DNS toggle handles
`Disable` then `Quit`, then the Rule Reconciler handles `Disable` then
`Quit`, then the process exits — instantiated for the DNS-toggle
subscriber. -/
theorem shutdown_disable_before_quit_witness :
    ∃ i j, i < j ∧
      j + 1 < ([Ev.obs Subscr.networkd Msg.Disable, Ev.obs Subscr.networkd Msg.Quit,
        Ev.obs Subscr.ruleRec Msg.Disable, Ev.obs Subscr.ruleRec Msg.Quit,
        Ev.exitEv] : List Ev).length ∧
      ([Ev.obs Subscr.networkd Msg.Disable, Ev.obs Subscr.networkd Msg.Quit,
        Ev.obs Subscr.ruleRec Msg.Disable, Ev.obs Subscr.ruleRec Msg.Quit,
        Ev.exitEv] : List Ev).get? i = some (Ev.obs Subscr.networkd Msg.Disable) ∧
      ([Ev.obs Subscr.networkd Msg.Disable, Ev.obs Subscr.networkd Msg.Quit,
        Ev.obs Subscr.ruleRec Msg.Disable, Ev.obs Subscr.ruleRec Msg.Quit,
        Ev.exitEv] : List Ev).get? j = some (Ev.obs Subscr.networkd Msg.Quit) := by
  have hI : Interleave (handle_events Subscr.networkd (shutdown_delivered []))
      (handle_events Subscr.ruleRec (shutdown_delivered []))
      [Ev.obs Subscr.networkd Msg.Disable, Ev.obs Subscr.networkd Msg.Quit,
       Ev.obs Subscr.ruleRec Msg.Disable, Ev.obs Subscr.ruleRec Msg.Quit] :=
    Interleave.left (Interleave.left (Interleave.right (Interleave.right Interleave.nil)))
  have h := shutdown_disable_before_quit [] []
    ([Ev.obs Subscr.networkd Msg.Disable, Ev.obs Subscr.networkd Msg.Quit,
      Ev.obs Subscr.ruleRec Msg.Disable, Ev.obs Subscr.ruleRec Msg.Quit,
      Ev.exitEv] : List Ev)
    (by simp) (by simp)
    ⟨[Ev.obs Subscr.networkd Msg.Disable, Ev.obs Subscr.networkd Msg.Quit,
      Ev.obs Subscr.ruleRec Msg.Disable, Ev.obs Subscr.ruleRec Msg.Quit], hI, rfl⟩
  exact h.1 Subscr.networkd
